import Mathlib

/-!
Verification of the row engine of the excelize worksheet library
(`rows.go`).  The worksheet data model, the streaming row iterator, the
structural editor (remove / insert / duplicate row with merged-cell
repair), the row densifier (`checkRow`) and the row-metadata accessors
are embedded as executable Lean definitions, translated from the Go
source.  External collaborators that are declared but not defined in the
given source (the coordinate codec, the reference-shifting helper
`adjustHelper`, `prepareSheetXML`, `MergeCell`, the value formatter) are
modelled from the specification; each such definition is marked
`Modelled from the spec:` in its doc comment.

Go machine integers are modelled as `Int` (arbitrary precision; the
claims under study only involve small values, far from 64-bit overflow).
Fallible Go code is modelled with `Except String`; a Go runtime panic
(slice index out of range) is modelled as an `Except.error` whose
message starts with `runtime error`.
-/

namespace Excelize

/-- A worksheet cell, translated from the Go struct `xlsxC`: reference
`R` (e.g. "A15"), type `T`, style index `S`, raw value `V`, and the
optional inline rich text `IS`, modelled by the string its `String()`
method renders. -/
structure XlsxC where
  R : String
  T : String
  S : Int
  V : String
  IS : Option String
deriving DecidableEq, Repr

/-- The zero value of `xlsxC` (Go composite literal `xlsxC{}`). -/
def cZero : XlsxC := { R := "", T := "", S := 0, V := "", IS := none }

/-- A worksheet row, translated from the Go struct `xlsxRow`: declared
row number `R`, the `Hidden` flag, and the cell list `C`.  Row-metadata
fields not touched by the functions under study (height, outline level,
spans, ...) are omitted. -/
structure XlsxRow where
  R : Int
  Hidden : Bool
  C : List XlsxC
deriving DecidableEq, Repr

/-- The zero value of `xlsxRow` with a given row number (Go composite
literal `xlsxRow{R: n}`). -/
def rowZero (n : Int) : XlsxRow := { R := n, Hidden := false, C := [] }

/-- A merged-cell region, translated from the Go struct `xlsxMergeCell`:
its rectangle reference such as "C2:D2". -/
structure XlsxMergeCell where
  Ref : String
deriving DecidableEq, Repr

/-- The in-memory worksheet (`xlsxWorksheet`), restricted to the parts
the row engine touches: `SheetData.Row` (here `Row`) and the optional
`MergeCells` block (`none` models the nil pointer). -/
structure XlsxWorksheet where
  Row : List XlsxRow
  MergeCells : Option (List XlsxMergeCell)
deriving DecidableEq, Repr

/-! ### Decimal and column-name codecs

Go's `strconv.Atoi` / `strconv.Itoa` and the coordinate utilities
(`CellNameToCoordinates`, `CoordinatesToCellName`, ...) live outside the
given source (`cell.go`); the spec lists them as the external
`CellRefToCoords` / `CoordsToCellRef` coordinate codec, erroring on
malformed input.  They are modelled here. -/

/-- The numeric value of a decimal digit character, `none` for
non-digits. -/
def digitVal (c : Char) : Option Nat :=
  if '0' ≤ c ∧ c ≤ '9' then some (c.toNat - '0'.toNat) else none

/-- Accumulating decimal parse of a digit list. -/
def digitsToNatAux : Nat → List Char → Option Nat
  | acc, [] => some acc
  | acc, c :: cs =>
    match digitVal c with
    | some d => digitsToNatAux (acc * 10 + d) cs
    | none => none

/-- Parse a non-empty all-digit character list as a natural number;
`none` on the empty list or on any non-digit. -/
def digitsToNat : List Char → Option Nat
  | [] => none
  | c :: cs => digitsToNatAux 0 (c :: cs)

/-- Modelled from the spec: Go's `strconv.Atoi` — an optional sign
followed by at least one decimal digit; `none` on malformed input.
Arbitrary precision stands in for Go's 64-bit range check. -/
def atoiGo (s : String) : Option Int :=
  match s.toList with
  | '+' :: cs => (digitsToNat cs).map (fun n => (n : Int))
  | '-' :: cs => (digitsToNat cs).map (fun n => -(n : Int))
  | cs => (digitsToNat cs).map (fun n => (n : Int))

/-- Go's decimal rendering of a possibly negative integer
(`strconv.Itoa` / `fmt` `%d`). -/
def intRepr (n : Int) : String :=
  if n < 0 then "-" ++ Nat.repr (-n).toNat else Nat.repr n.toNat

/-- Is the character an ASCII letter? -/
def isAlphaChar (c : Char) : Bool :=
  ('A' ≤ c ∧ c ≤ 'Z') ∨ ('a' ≤ c ∧ c ≤ 'z')

/-- The 1-based value of one column-name letter (`'A'`/`'a'` ↦ 1, ...,
`'Z'`/`'z'` ↦ 26), `none` otherwise. -/
def colCharVal (c : Char) : Option Nat :=
  if 'A' ≤ c ∧ c ≤ 'Z' then some (c.toNat - 64)
  else if 'a' ≤ c ∧ c ≤ 'z' then some (c.toNat - 96)
  else none

/-- Modelled from the spec: `ColumnNameToNumber` of the external
coordinate codec — bijective base-26 value of a non-empty letter
string, error on malformed input. -/
def ColumnNameToNumber (s : String) : Except String Int :=
  if s.isEmpty then .error "invalid column name" else
  match s.toList.foldl
      (fun acc c => acc.bind fun a => (colCharVal c).map fun v => a * 26 + v)
      (some 0) with
  | some n => .ok (n : Int)
  | none => .error ("invalid column name " ++ s)

/-- Letters of a bijective base-26 column name, most significant first;
the first argument is recursion fuel (the column number itself is always
enough fuel, since `(n-1)/26 < n` for `n ≥ 1`). -/
def colNameAux : Nat → Nat → String
  | 0, _ => ""
  | _ + 1, 0 => ""
  | fuel + 1, n =>
    colNameAux fuel ((n - 1) / 26) ++ String.singleton (Char.ofNat ((n - 1) % 26 + 65))

/-- Modelled from the spec: `ColumnNumberToName` of the external
coordinate codec — bijective base-26 column name, error when the number
is below 1. -/
def ColumnNumberToName (n : Int) : Except String String :=
  if n < 1 then .error "incorrect column number" else .ok (colNameAux n.toNat n.toNat)

/-- Modelled from the spec: `CellRefToCoords` — split a cell reference
such as "A15" into its letter prefix and digit suffix and return the
(column, row) pair, erroring on malformed input. -/
def CellNameToCoordinates (cell : String) : Except String (Int × Int) :=
  let cs := cell.toList
  match digitsToNat (cs.dropWhile isAlphaChar) with
  | none => .error ("cannot convert cell " ++ cell ++ " to coordinates")
  | some row =>
    match ColumnNameToNumber (String.mk (cs.takeWhile isAlphaChar)) with
    | .error e => .error e
    | .ok col => .ok (col, (row : Int))

/-- Modelled from the spec: `CoordsToCellRef` — render (column, row) as
a cell reference, erroring when either coordinate is below 1. -/
def CoordinatesToCellName (col row : Int) : Except String String :=
  if col < 1 ∨ row < 1 then .error "invalid cell coordinates"
  else
    match ColumnNumberToName col with
    | .error e => .error e
    | .ok name => .ok (name ++ intRepr row)

/-- Split a character list at every colon (the semantics of Go's
`strings.Split(ref, ":")`). -/
def splitColon : List Char → List (List Char)
  | [] => [[]]
  | c :: rest =>
    match splitColon rest with
    | [] => [[]]
    | g :: gs => if c = ':' then [] :: g :: gs else (c :: g) :: gs

/-- Modelled from the spec: `AreaRefToCoordinates` — split a rectangle
reference "C2:D2" at the colon and parse both corners, erroring on
malformed input. -/
def areaRefToCoordinates (ref : String) : Except String (Int × Int × Int × Int) :=
  match (splitColon ref.toList).map String.mk with
  | [a, b] =>
    match CellNameToCoordinates a with
    | .error e => .error e
    | .ok (x1, y1) =>
      match CellNameToCoordinates b with
      | .error e => .error e
      | .ok (x2, y2) => .ok (x1, y1, x2, y2)
  | _ => .error "parameter is invalid"

/-! ### Value resolution (`getValueFrom`)

The shared-string table `xlsxSST` is modelled by the list of the
rendered strings of its items (the spec treats the table as the
external "string at index N" lookup); the external `formattedValue`
style formatter (spec: `FormatValue(styleIndex, rawValue)`) is passed in
as a function parameter `fmt`. -/

/-- Go slice read `l[i]` with an `Int` index: the value when the index
is in range, the out-of-range runtime panic otherwise. -/
def goIndex (l : List String) (i : Int) : Except String String :=
  if 0 ≤ i ∧ i < l.length then .ok (l.getD i.toNat "")
  else .error "runtime error: index out of range"

/-- Translated from `getValueFrom` (rows.go): resolve a cell's display
string from its type.  A shared-string cell with non-empty raw value
parses the value with `strconv.Atoi`, discarding the parse error (so a
non-numeric value yields index 0); when `len(d.SI) > index` the shared
string at that index is formatted — Go indexes the slice directly
there, so a negative parsed index panics, modelled as an error — and
otherwise the raw value is formatted. -/
def getValueFrom (fmt : Int → String → String) (si : List String) (c : XlsxC) :
    Except String String :=
  match c.T with
  | "s" =>
    if c.V ≠ "" then
      let xlsxSI : Int := (atoiGo c.V).getD 0
      if (si.length : Int) > xlsxSI then
        match goIndex si xlsxSI with
        | .ok s => .ok (fmt c.S s)
        | .error e => .error e
      else .ok (fmt c.S c.V)
    else .ok (fmt c.S c.V)
  | "str" => .ok (fmt c.S c.V)
  | "inlineStr" =>
    match c.IS with
    | some s => .ok (fmt c.S s)
    | none => .ok (fmt c.S c.V)
  | _ => .ok (fmt c.S c.V)

/-! ### The streaming row iterator (`Rows`, `Next`, `Columns`, `GetRows`)

The external streaming XML pull-parser (spec: `NewXMLDecoder` producing
start/end/element tokens with element-scoped structured decode) is
modelled by a token list.  A `cellElem` token stands for the start
token of a `<c>` element together with its structured decode
(`DecodeElement` consumes the whole element, leaving the stream after
`</c>`); `other` stands for any token the row reader ignores (start or
end tokens of other elements, character data). -/

/-- One token of the worksheet XML stream. -/
inductive Tok where
  | startRow (attrs : List (String × String))
  | endRow
  | cellElem (c : XlsxC)
  | other
deriving DecidableEq, Repr

/-- The iterator state, translated from the Go struct `Rows`: current
logical cursor, pre-scanned total, stashed row number, and the decoder
position (the remaining token list).  The never-assigned `err` field is
omitted. -/
structure RowsIter where
  curRow : Int
  totalRow : Int
  stashRow : Int
  toks : List Tok
deriving DecidableEq, Repr

/-- The attribute scan of the pre-scan in `Rows`: the last "r"
attribute parsed with `strconv.Atoi` wins, a parse failure is returned
as an error; without an "r" attribute the `row` variable keeps its
previous value. -/
def rowAttrScan (rowVar : Int) : List (String × String) → Except String Int
  | [] => .ok rowVar
  | (n, v) :: rest =>
    if n = "r" then
      match atoiGo v with
      | none => .error ("strconv.Atoi: parsing " ++ v)
      | some r => rowAttrScan r rest
    else rowAttrScan rowVar rest

/-- The forward pre-scan of `Rows` (rows.go, lines 186-207): walk every
token, and at each row start element set `totalRow` to the current
value of the `row` variable (the last parsed "r" attribute — for rows
declared out of ascending order this is not the maximum). -/
def prescan : List Tok → Int → Int → Except String Int
  | [], _, total => .ok total
  | .startRow attrs :: rest, rowVar, _ =>
    match rowAttrScan rowVar attrs with
    | .error e => .error e
    | .ok r => prescan rest r r
  | _ :: rest, rowVar, total => prescan rest rowVar total

/-- Translated from `Rows` (rows.go): pre-scan the worksheet token
stream for `totalRow`, then return a fresh iterator over a second
cursor positioned at the start (sheet lookup and the in-memory flush
are the external packaging layer and are not modelled). -/
def RowsOpen (toks : List Tok) : Except String RowsIter :=
  match prescan toks 0 0 with
  | .error e => .error e
  | .ok total => .ok { curRow := 0, totalRow := total, stashRow := 0, toks := toks }

/-- Translated from `Next` (rows.go): advance the logical cursor and
report whether it is still within the pre-scanned total. -/
def RowsIter.next (it : RowsIter) : Bool × RowsIter :=
  let it' : RowsIter := { it with curRow := it.curRow + 1 }
  (decide (it'.curRow ≤ it'.totalRow), it')

/-- Result of one `Columns` scan: accumulated values, error, remaining
tokens, and the new stash value when one was set. -/
structure ColsOut where
  cols : List String
  err : Option String
  rest : List Tok
  stash : Option Int
deriving DecidableEq, Repr

/-- Outcome of scanning a row start element's attributes inside
`Columns`. -/
inductive AttrScanResult where
  | fail (e : String)
  | stash (row : Int)
  | cont (rowVar : Int)
deriving DecidableEq, Repr

/-- The attribute scan of `Columns` (rows.go, lines 105-116): parse
each "r" attribute; a parse failure aborts, a row number beyond the
current cursor is stashed, otherwise scanning continues. -/
def colRowAttrScan (curRow rowVar : Int) : List (String × String) → AttrScanResult
  | [] => .cont rowVar
  | (n, v) :: rest =>
    if n = "r" then
      match atoiGo v with
      | none => .fail ("strconv.Atoi: parsing " ++ v)
      | some r => if r > curRow then .stash r else colRowAttrScan curRow r rest
    else colRowAttrScan curRow rowVar rest

/-- The token loop of `Columns` (rows.go, lines 96-138): row starts
whose number is beyond the cursor stash that number minus one and
return; cell elements are decoded, their column computed from the
reference (errors propagate), the value list left-padded with empties
for skipped columns, and the resolved value appended (a value
resolution panic aborts the scan — `Columns` discards `getValueFrom`'s
error return, which is always nil in Go); a row end returns; end of
stream returns the accumulation. -/
def columnsAux (fmt : Int → String → String) (si : List String) (curRow : Int) :
    List Tok → List String → ColsOut
  | [], cols => { cols := cols, err := none, rest := [], stash := none }
  | t :: rest, cols =>
    match t with
    | .startRow attrs =>
      match colRowAttrScan curRow 0 attrs with
      | .fail e => { cols := cols, err := some e, rest := rest, stash := none }
      | .stash r => { cols := cols, err := none, rest := rest, stash := some (r - 1) }
      | .cont _ => columnsAux fmt si curRow rest cols
    | .cellElem c =>
      match CellNameToCoordinates c.R with
      | .error e => { cols := cols, err := some e, rest := rest, stash := none }
      | .ok (cellCol, _) =>
        let cols' := cols ++ List.replicate ((cellCol - (cols.length : Int)) - 1).toNat ""
        match getValueFrom fmt si c with
        | .error e => { cols := cols', err := some e, rest := rest, stash := none }
        | .ok v => columnsAux fmt si curRow rest (cols' ++ [v])
    | .endRow => { cols := cols, err := none, rest := rest, stash := none }
    | .other => columnsAux fmt si curRow rest cols

/-- Translated from `Columns` (rows.go): when the stashed row number
has reached the cursor the current row was already consumed as an
absent row and an empty list is returned; otherwise scan forward. -/
def Columns (fmt : Int → String → String) (si : List String) (it : RowsIter) :
    List String × Option String × RowsIter :=
  if it.stashRow ≥ it.curRow then ([], none, it)
  else
    let out := columnsAux fmt si it.curRow it.toks []
    (out.cols, out.err,
      { it with toks := out.rest, stashRow := out.stash.getD it.stashRow })

/-- The drain loop of `GetRows` (rows.go, lines 48-57), with `Next` and
`Columns` unrolled over the explicit iterator fields.  The `Error()`
flag checked by the Go loop is never assigned anywhere in the source,
so it is dropped.  The first argument is recursion fuel; `Next`
pre-increments a monotone cursor bounded by `totalRow`, so
`totalRow + 1` steps of fuel always suffice. -/
def getRowsLoop (fmt : Int → String → String) (si : List String) (totalRow : Int) :
    Nat → Int → Int → List Tok → List (List String) → List (List String)
  | 0, _, _, _, acc => acc
  | fuel + 1, curRow, stashRow, toks, acc =>
    if curRow + 1 ≤ totalRow then
      if stashRow ≥ curRow + 1 then
        getRowsLoop fmt si totalRow fuel (curRow + 1) stashRow toks (acc ++ [[]])
      else
        let out := columnsAux fmt si (curRow + 1) toks []
        match out.err with
        | some _ => acc
        | none =>
          getRowsLoop fmt si totalRow fuel (curRow + 1) (out.stash.getD stashRow)
            out.rest (acc ++ [out.cols])
    else acc

/-- Translated from `GetRows` (rows.go): open an iterator (propagating
its error) and drain it, keeping the rows collected before any
`Columns` failure. -/
def GetRows (fmt : Int → String → String) (si : List String) (toks : List Tok) :
    Except String (List (List String)) :=
  match RowsOpen toks with
  | .error e => .error e
  | .ok it =>
    .ok (getRowsLoop fmt si it.totalRow (it.totalRow.toNat + 1) it.curRow it.stashRow
      it.toks [])

/-! ### Row metadata accessors (visibility) -/

/-- The message of Go's `newInvalidRowNumberError(row)`. -/
def newInvalidRowNumberError (row : Int) : String :=
  "invalid row number " ++ intRepr row

/-- Modelled from the spec: `prepareSheetXML` — setting row metadata
"auto-creates/extends row storage up to and including the target row",
appending empty rows numbered after the current count. -/
def prepareSheetXML (rs : List XlsxRow) (row : Int) : List XlsxRow :=
  if (rs.length : Int) < row then
    rs ++ (List.range (row.toNat - rs.length)).map (fun k => rowZero ((rs.length + k + 1 : Nat) : Int))
  else rs

/-- Translated from `SetRowVisible` (rows.go): reject row numbers below
1, extend storage to the target row, and set the `Hidden` flag of the
record at position `row - 1` to the negation of `visible`.  (The sheet
lookup of `workSheetReader` is external and not modelled.) -/
def SetRowVisible (ws : XlsxWorksheet) (row : Int) (visible : Bool) :
    Except String XlsxWorksheet :=
  if row < 1 then .error (newInvalidRowNumberError row)
  else
    let rs := prepareSheetXML ws.Row row
    let i := (row - 1).toNat
    .ok { ws with Row := rs.set i { rs.getD i (rowZero 0) with Hidden := !visible } }

/-- Translated from `GetRowVisible` (rows.go): reject row numbers below
1; for a row beyond the stored records return `false` with no error;
otherwise return the negated `Hidden` flag of the record at position
`row - 1`. -/
def GetRowVisible (ws : XlsxWorksheet) (row : Int) : Except String Bool :=
  if row < 1 then .error (newInvalidRowNumberError row)
  else if (ws.Row.length : Int) < row then .ok false
  else .ok (!(ws.Row.getD (row - 1).toNat (rowZero 0)).Hidden)

/-! ### The reference-shifting collaborator (`adjustHelper`) -/

/-- Modelled from the spec: `ajustSingleRowDimensions` (adjust.go, used
at rows.go line 518) — "renumber every copied cell's reference to
`row2`": set the row number and rewrite every cell reference to its
letter prefix followed by the new row number. -/
def ajustSingleRowDimensions (r : XlsxRow) (num : Int) : XlsxRow :=
  { r with
    R := num
    C := r.C.map fun c =>
      { c with R := String.mk (c.R.toList.takeWhile isAlphaChar) ++ intRepr num } }

/-- Shift of a single stored row by the reference-adjustment
collaborator: a row at or after the pivot is renumbered by `delta` when
the new number stays positive. -/
def shiftRow (pivot delta : Int) (r : XlsxRow) : XlsxRow :=
  if pivot ≤ r.R ∧ 0 < r.R + delta then ajustSingleRowDimensions r (r.R + delta) else r

/-- Shift of one merged region's row coordinates by the
reference-adjustment collaborator; a region whose reference does not
parse is left unchanged. -/
def shiftMergeRef (pivot delta : Int) (m : XlsxMergeCell) : XlsxMergeCell :=
  match areaRefToCoordinates m.Ref with
  | .error _ => m
  | .ok (x1, y1, x2, y2) =>
    let y1' := if pivot ≤ y1 then y1 + delta else y1
    let y2' := if pivot ≤ y2 then y2 + delta else y2
    match CoordinatesToCellName x1 y1', CoordinatesToCellName x2 y2' with
    | .ok a, .ok b => { Ref := a ++ ":" ++ b }
    | _, _ => m

/-- The greatest stored row number (0 when no rows are stored). -/
def maxRowNumber (rs : List XlsxRow) : Int :=
  rs.foldl (fun a r => max a r.R) 0

/-- The first stored row carrying the given number. -/
def findRowByR (rs : List XlsxRow) (n : Int) : Option XlsxRow :=
  rs.find? (fun r => r.R == n)

/-- Slots `start + 1 .. start + count` of the densified row store: the
first stored row with that number, or an empty row. -/
def buildDense (rs : List XlsxRow) : Nat → Nat → List XlsxRow
  | _, 0 => []
  | i, k + 1 =>
    (findRowByR rs ((i : Int) + 1)).getD (rowZero ((i : Int) + 1)) :: buildDense rs (i + 1) k

/-- Re-densification of the row store after a shift: one slot per row
number from 1 up to the larger of the stored count and the greatest
stored row number, so that vacated slots exist as empty rows. -/
def checkSheetDensify (rs : List XlsxRow) : List XlsxRow :=
  buildDense rs 0 (max (maxRowNumber rs).toNat rs.length)

/-- Modelled from the spec: the external reference-adjustment
collaborator `ShiftReferences` (`adjustHelper(sheet, rows, pivot,
delta)` of adjust.go, absent from the given source) — renumber every
stored row at or after the pivot by `delta` together with its cell
references, shift merged-region row coordinates the same way, and
re-densify the row store so that "possibly newly vacated or shifted"
slots exist (spec 4.3).  Formula and chart rewriting are out of scope
per the spec. -/
def adjustHelper (ws : XlsxWorksheet) (pivot delta : Int) : XlsxWorksheet :=
  { Row := checkSheetDensify (ws.Row.map (shiftRow pivot delta))
    MergeCells := ws.MergeCells.map (List.map (shiftMergeRef pivot delta)) }

/-! ### Structural editor -/

/-- Translated from `RemoveRow` (rows.go): reject row numbers below 1;
for a row beyond the stored count remove nothing but still shift all
references by -1 at the row; otherwise delete the first matching row
record and shift, or do nothing when no record matches. -/
def RemoveRow (ws : XlsxWorksheet) (row : Int) : Except String XlsxWorksheet :=
  if row < 1 then .error (newInvalidRowNumberError row)
  else if (ws.Row.length : Int) < row then .ok (adjustHelper ws row (-1))
  else
    match ws.Row.findIdx? (fun r => r.R == row) with
    | some i => .ok (adjustHelper { ws with Row := ws.Row.eraseIdx i } row (-1))
    | none => .ok ws

/-- Translated from `InsertRow` (rows.go): reject row numbers below 1,
otherwise a pure reference shift of +1 at the row. -/
def InsertRow (ws : XlsxWorksheet) (row : Int) : Except String XlsxWorksheet :=
  if row < 1 then .error (newInvalidRowNumberError row)
  else .ok (adjustHelper ws row 1)

/-- The first straddle scan of `duplicateMergeCells` (rows.go, lines
537-545): parse every region (errors propagate) and report whether some
region's row span strictly contains `row2`. -/
def straddleCheck (row2 : Int) : List XlsxMergeCell → Except String Bool
  | [] => .ok false
  | m :: rest =>
    match areaRefToCoordinates m.Ref with
    | .error e => .error e
    | .ok (_, y1, _, y2) =>
      if y1 < row2 ∧ row2 < y2 then .ok true else straddleCheck row2 rest

/-- Modelled from the spec: the external `MergeCells(sheet, fromRef,
toRef)` collaborator "creates a merged region" — append it to the
region list. -/
def mergeCellAppend (cells : List XlsxMergeCell) (fromRef toRef : String) :
    List XlsxMergeCell :=
  cells ++ [{ Ref := fromRef ++ ":" ++ toRef }]

/-- The duplication loop of `duplicateMergeCells` (rows.go, lines
546-558): walk the region list by index — the list grows while it is
being walked, since `MergeCell` appends to it — duplicating every
single-row region on the source row to `row2` and then skipping the
immediately following index (`i++` inside the loop body).  The region
parse error Go discards would make the subsequent coordinate reads
panic, modelled as an error.  The first argument is recursion fuel: the
distance from the index to the list length shrinks at every step (a
match grows the list by one but advances the index by two), so
`cells.length + 1` steps always suffice from index 0. -/
def dupLoop (row row2 : Int) : Nat → Nat → List XlsxMergeCell →
    Except String (List XlsxMergeCell)
  | 0, _, cells => .ok cells
  | fuel + 1, i, cells =>
    if h : i < cells.length then
      match areaRefToCoordinates (cells.get ⟨i, h⟩).Ref with
      | .error _ => .error "runtime error: index out of range"
      | .ok (x1, y1, x2, y2) =>
        if y1 = y2 ∧ y1 = row then
          let fromRef := (CoordinatesToCellName x1 row2).toOption.getD ""
          let toRef := (CoordinatesToCellName x2 row2).toOption.getD ""
          dupLoop row row2 fuel (i + 2) (mergeCellAppend cells fromRef toRef)
        else dupLoop row row2 fuel (i + 1) cells
    else .ok cells

/-- Translated from `duplicateMergeCells` (rows.go): nothing to do
without a merge block; adjust the source row by +1 when it sits after
the destination (accounting for the shift already applied); skip all
repair when any region's row span strictly contains `row2`; otherwise
run the duplication loop. -/
def duplicateMergeCells (ws : XlsxWorksheet) (row row2 : Int) :
    Except String XlsxWorksheet :=
  match ws.MergeCells with
  | none => .ok ws
  | some cells =>
    match straddleCheck row2 cells with
    | .error e => .error e
    | .ok true => .ok ws
    | .ok false =>
      match dupLoop (if row > row2 then row + 1 else row) row2 (cells.length + 1) 0 cells with
      | .error e => .error e
      | .ok cells' => .ok { ws with MergeCells := some cells' }

/-- Translated from `DuplicateRowTo` (rows.go): reject source rows
below 1; a source beyond the stored count, a destination below 1 or
equal to the source, or a missing source record are silent no-ops;
otherwise remember the source record, shift all references by +1 at the
destination, locate the destination slot, give up silently when there
is no slot although the store reaches the destination, and otherwise
deep-copy the remembered record renumbered to the destination into the
slot (overwriting it, or appending when the store is shorter), then
repair merged cells.  (The Go value `rowCopy` aliases the source's cell
array until the explicit copy; the shift only renumbers references,
and the subsequent renumbering to `row2` overwrites exactly those, so
capturing the record before the shift is observably equal.) -/
def DuplicateRowTo (ws : XlsxWorksheet) (row row2 : Int) :
    Except String XlsxWorksheet :=
  if row < 1 then .error (newInvalidRowNumberError row)
  else if (ws.Row.length : Int) < row ∨ row2 < 1 ∨ row = row2 then .ok ws
  else
    match ws.Row.find? (fun r => r.R == row) with
    | none => .ok ws
    | some rowCopy =>
      let ws1 := adjustHelper ws row2 1
      match ws1.Row.findIdx? (fun r => r.R == row2) with
      | none =>
        if (ws1.Row.length : Int) ≥ row2 then .ok ws1
        else
          duplicateMergeCells
            { ws1 with Row := ws1.Row ++ [ajustSingleRowDimensions rowCopy row2] } row row2
      | some i =>
        duplicateMergeCells
          { ws1 with Row := ws1.Row.set i (ajustSingleRowDimensions rowCopy row2) } row row2

/-- Translated from `DuplicateRow` (rows.go): duplicate directly below. -/
def DuplicateRow (ws : XlsxWorksheet) (row : Int) : Except String XlsxWorksheet :=
  DuplicateRowTo ws row (row + 1)

/-! ### The row densifier (`checkRow`) -/

/-- The placeholder cells of the rebuilt row (rows.go, lines 605-611):
reference-only cells for columns `colIdx + 1 .. colIdx + count` of the
row at slice position `rowIdx` — their row number is `rowIdx + 1`, the
position in the stored sequence, not the row's declared number. -/
def buildPlaceholders (rowIdx : Nat) : Nat → Nat → Except String (List XlsxC)
  | _, 0 => .ok []
  | colIdx, k + 1 =>
    match CoordinatesToCellName ((colIdx : Int) + 1) ((rowIdx : Int) + 1) with
    | .error e => .error e
    | .ok name =>
      match buildPlaceholders rowIdx (colIdx + 1) k with
      | .error e => .error e
      | .ok rest => .ok ({ cZero with R := name } :: rest)

/-- The overlay loop of `checkRow` (rows.go, lines 615-622): write each
original cell, in declaration order, into the slot of its parsed column
number; a reference parse failure propagates, and a column beyond the
rebuilt length is the Go slice-write panic, modelled as an error. -/
def overlayCells : List XlsxC → List XlsxC → Except String (List XlsxC)
  | newlist, [] => .ok newlist
  | newlist, c :: cs =>
    match CellNameToCoordinates c.R with
    | .error e => .error e
    | .ok (colNum, _) =>
      if (colNum - 1).toNat < newlist.length ∧ 1 ≤ colNum then
        overlayCells (newlist.set (colNum - 1).toNat c) cs
      else .error "runtime error: index out of range"

/-- The per-row body of `checkRow` (rows.go, lines 588-623) for the row
at slice position `rowIdx`: a row with no cells is skipped; the column
of the last declared cell is parsed (errors propagate); when the cell
count falls short of it the cell list is rebuilt as the dense
placeholder sequence with the original cells overlaid. -/
def checkRowCells (rowIdx : Nat) (rowData : XlsxRow) : Except String XlsxRow :=
  if rowData.C.length = 0 then .ok rowData
  else
    match CellNameToCoordinates (rowData.C.getLastD cZero).R with
    | .error e => .error e
    | .ok (lastCol, _) =>
      if (rowData.C.length : Int) < lastCol then
        match buildPlaceholders rowIdx 0 lastCol.toNat with
        | .error e => .error e
        | .ok newlist =>
          match overlayCells newlist rowData.C with
          | .error e => .error e
          | .ok final => .ok { rowData with C := final }
      else .ok rowData

/-- The row loop of `checkRow`, walking the stored rows with their
slice positions. -/
def checkRowAux : Nat → List XlsxRow → Except String (List XlsxRow)
  | _, [] => .ok []
  | i, r :: rs =>
    match checkRowCells i r with
    | .error e => .error e
    | .ok r' =>
      match checkRowAux (i + 1) rs with
      | .error e => .error e
      | .ok rs' => .ok (r' :: rs')

/-- Translated from `checkRow` (rows.go): densify every stored row. -/
def checkRow (ws : XlsxWorksheet) : Except String XlsxWorksheet :=
  match checkRowAux 0 ws.Row with
  | .error e => .error e
  | .ok rs => .ok { ws with Row := rs }

/-! ### The dense value list, from the spec's words

Used to state the streaming claims as a refinement: spec 4.1 — "compute
its column number from its reference, left-pad the result sequence with
empty strings for any skipped columns, resolve its display value via
the Value Resolution rule, and append". -/

/-- Accumulating form of the spec's dense value list of a declared
cell sequence. -/
def denseRowAux (fmt : Int → String → String) (si : List String) :
    List XlsxC → List String → Except String (List String)
  | [], cols => .ok cols
  | c :: cs, cols =>
    match CellNameToCoordinates c.R with
    | .error e => .error e
    | .ok (cellCol, _) =>
      let cols' := cols ++ List.replicate ((cellCol - (cols.length : Int)) - 1).toNat ""
      match getValueFrom fmt si c with
      | .error e => .error e
      | .ok v => denseRowAux fmt si cs (cols' ++ [v])

/-- The spec's dense value list of a declared row. -/
def denseRow (fmt : Int → String → String) (si : List String) (cs : List XlsxC) :
    Except String (List String) :=
  denseRowAux fmt si cs []

/-! ### Token streams of declared rows, and iterator helpers -/

/-- The token stream of one declared row element with the given "r"
attribute and cell children. -/
def rowToks (a : String) (cs : List XlsxC) : List Tok :=
  Tok.startRow [("r", a)] :: (cs.map Tok.cellElem ++ [Tok.endRow])

/-- The token stream of a worksheet declaring the given rows in the
given order. -/
def sheetToksOf : List (String × List XlsxC) → List Tok
  | [] => []
  | p :: ps => rowToks p.1 p.2 ++ sheetToksOf ps

/-- The iterator state and result after calling `Next` `k` times (the
result component is meaningful for `k ≥ 1`). -/
def nextN (it : RowsIter) : Nat → Bool × RowsIter
  | 0 => (true, it)
  | k + 1 => ((nextN it k).2).next

/-- The spec-side placeholder sequence: reference-only cells for `count`
columns starting at `colIdx + 1`, all carrying row number `rowIdx + 1`
— the row's position in the stored sequence plus one. -/
def phExpected (rowIdx : Nat) : Nat → Nat → List XlsxC
  | _, 0 => []
  | colIdx, k + 1 =>
    { cZero with R := colNameAux (colIdx + 1) (colIdx + 1) ++ intRepr ((rowIdx : Int) + 1) } ::
      phExpected rowIdx (colIdx + 1) k

/-! ### Concrete instances used by the examples in the claims -/

/-- A formula-string cell (type "str") with the given reference and raw
value. -/
def cellStr (r v : String) : XlsxC := { R := r, T := "str", S := 0, V := v, IS := none }

/-- A row holding one formula-string cell. -/
def exRow (n : Int) (ref v : String) : XlsxRow :=
  { R := n, Hidden := false, C := [cellStr ref v] }

/-- A five-row worksheet with one cell per row. -/
def ws5rows : XlsxWorksheet :=
  { Row := [exRow 1 "A1" "r1", exRow 2 "A2" "r2", exRow 3 "A3" "r3",
      exRow 4 "A4" "r4", exRow 5 "A5" "r5"]
    MergeCells := none }

/-- `ws5rows` after removing row 3: four rows, the rows originally
numbered 4 and 5 renumbered (references included) to 3 and 4. -/
def ws4rowsAfter : XlsxWorksheet :=
  { Row := [exRow 1 "A1" "r1", exRow 2 "A2" "r2", exRow 3 "A3" "r4", exRow 4 "A4" "r5"]
    MergeCells := none }

/-- The row-2 record of `wsMergeEx`. -/
def srcRow2 : XlsxRow :=
  { R := 2, Hidden := false, C := [cellStr "C2" "x", cellStr "D2" "y"] }

/-- A two-row worksheet whose row 2 carries cells C2, D2 and a
single-row merged region "C2:D2". -/
def wsMergeEx : XlsxWorksheet :=
  { Row := [exRow 1 "A1" "a",
      { R := 2, Hidden := false, C := [cellStr "C2" "x", cellStr "D2" "y"] }]
    MergeCells := some [{ Ref := "C2:D2" }] }

/-- `wsMergeEx` after `DuplicateRowTo 2 7`: the original rows are
unchanged, the copy sits at row 7 with renumbered references, and an
equivalent merged region "C7:D7" was created. -/
def wsMergeExOut : XlsxWorksheet :=
  { Row := [exRow 1 "A1" "a",
      { R := 2, Hidden := false, C := [cellStr "C2" "x", cellStr "D2" "y"] },
      { R := 7, Hidden := false, C := [cellStr "C7" "x", cellStr "D7" "y"] }]
    MergeCells := some [{ Ref := "C2:D2" }, { Ref := "C7:D7" }] }

/-- A row numbered 15 with cells declared only at columns 1, 2, 6, 7
(references A15, B15, F15, G15), carrying values and styles. -/
def row15sparse : XlsxRow :=
  { R := 15, Hidden := false
    C := [{ R := "A15", T := "str", S := 2, V := "v1", IS := none },
      { R := "B15", T := "str", S := 2, V := "v2", IS := none },
      { R := "F15", T := "str", S := 1, V := "v3", IS := none },
      { R := "G15", T := "str", S := 1, V := "v4", IS := none }] }

/-- A worksheet storing only `row15sparse` (sparse storage: one stored
record, numbered 15). -/
def wsSparse15 : XlsxWorksheet := { Row := [row15sparse], MergeCells := none }

/-- A worksheet storing rows 1..14 (empty) followed by `row15sparse`,
so that row 15 is the 15th stored record. -/
def wsDense15 : XlsxWorksheet :=
  { Row := (List.range 14).map (fun i => rowZero ((i + 1 : Nat) : Int)) ++ [row15sparse]
    MergeCells := none }

/-- The densified row 15: originals preserved in full at columns 1, 2,
6, 7 and reference-only empty placeholders C15, D15, E15 at columns 3,
4, 5. -/
def row15dense : XlsxRow :=
  { R := 15, Hidden := false
    C := [{ R := "A15", T := "str", S := 2, V := "v1", IS := none },
      { R := "B15", T := "str", S := 2, V := "v2", IS := none },
      { cZero with R := "C15" }, { cZero with R := "D15" }, { cZero with R := "E15" },
      { R := "F15", T := "str", S := 1, V := "v3", IS := none },
      { R := "G15", T := "str", S := 1, V := "v4", IS := none }] }

/-- A worksheet with two consecutive single-row merges on row 2 and no
rows. -/
def wsMerge2 : XlsxWorksheet :=
  { Row := [], MergeCells := some [{ Ref := "C2:D2" }, { Ref := "F2:G2" }] }

/-- `wsMerge2` after merge repair for duplication of row 2 to row 7:
only the first merge was duplicated. -/
def wsMerge2Out : XlsxWorksheet :=
  { Row := [], MergeCells := some [{ Ref := "C2:D2" }, { Ref := "F2:G2" }, { Ref := "C7:D7" }] }

/-- A worksheet token stream declaring row 5 first and row 3 second
(out-of-order declarations). -/
def c5cexToks : List Tok :=
  [Tok.startRow [("r", "5")], Tok.endRow, Tok.startRow [("r", "3")], Tok.endRow]

/-- A sparse three-row worksheet storing rows numbered 2, 3, 4. -/
def wsSparse234 : XlsxWorksheet :=
  { Row := [exRow 2 "A2" "b", exRow 3 "A3" "c", exRow 4 "A4" "d"], MergeCells := none }

/-- A fresh iterator with the given total and token stream. -/
def iterAt (total : Int) (tk : List Tok) : RowsIter :=
  { curRow := 0, totalRow := total, stashRow := 0, toks := tk }

/-- `row15sparse` as `checkRow` actually rebuilds it when it is the
only stored record (slice position 0): placeholders carry row number
1, not 15. -/
def row15at0 : XlsxRow :=
  { R := 15, Hidden := false
    C := [{ R := "A15", T := "str", S := 2, V := "v1", IS := none },
      { R := "B15", T := "str", S := 2, V := "v2", IS := none },
      { cZero with R := "C1" }, { cZero with R := "D1" }, { cZero with R := "E1" },
      { R := "F15", T := "str", S := 1, V := "v3", IS := none },
      { R := "G15", T := "str", S := 1, V := "v4", IS := none }] }

/-- The worksheet `wsSparse15` after `checkRow`. -/
def wsSparse15Out : XlsxWorksheet := { Row := [row15at0], MergeCells := none }

/-- The worksheet `wsDense15` after `checkRow`: rows 1..14 unchanged,
row 15 densified to A15..G15. -/
def wsDense15Out : XlsxWorksheet :=
  { Row := (List.range 14).map (fun i => rowZero ((i + 1 : Nat) : Int)) ++ [row15dense]
    MergeCells := none }

end Excelize

namespace Excelize

/-! ## Helper lemmas -/

lemma prepare_len (rs : List XlsxRow) (row : Int) :
    (prepareSheetXML rs row).length = max rs.length row.toNat := by
  unfold prepareSheetXML
  split
  · rw [List.length_append, List.length_map, List.length_range]
    omega
  · omega

lemma list_getD_set_self {α : Type} (l : List α) (i : Nat) (a d : α) (h : i < l.length) :
    (l.set i a).getD i d = a := by
  rw [List.getD_eq_getElem?_getD, List.getElem?_set_self h, Option.getD_some]

lemma find?_eq_none_of_forall {α : Type} (p : α → Bool) (l : List α)
    (h : ∀ x ∈ l, p x = false) : l.findIdx? p = none :=
  List.findIdx?_eq_none_iff.mpr h

/-! ## Claim C1 -/

/-- Claim C1 counterexample: on a worksheet with no stored row records,
`GetRowVisible` at row 1 returns `false` (hidden) with no error,
whereas the claim asserts the default is `true` (visible). -/
theorem C1_cex :
    GetRowVisible { Row := [], MergeCells := none } 1 = .ok false ∧
      (Except.ok false : Except String Bool) ≠ .ok true := by
  constructor
  · rfl
  · simp

/-- Claim C1, amended: for every row number `r ≥ 1` exceeding the
stored row count, `GetRowVisible` returns `false` — not `true` — with
no error; and `SetRowVisible(sheet, r, false)` followed by
`GetRowVisible(sheet, r)` returns `false` for every storable row
`r ≥ 1`. -/
theorem C1_thm :
    (∀ (ws : XlsxWorksheet) (row : Int), 1 ≤ row → (ws.Row.length : Int) < row →
      GetRowVisible ws row = .ok false) ∧
    (∀ (ws : XlsxWorksheet) (row : Int), 1 ≤ row →
      (SetRowVisible ws row false).bind (fun w => GetRowVisible w row) = .ok false) := by
  constructor
  · intro ws row h1 h2
    unfold GetRowVisible
    rw [if_neg (by omega), if_pos h2]
  · intro ws row h1
    unfold SetRowVisible
    rw [if_neg (show ¬row < 1 by omega)]
    show GetRowVisible _ row = .ok false
    unfold GetRowVisible
    rw [if_neg (show ¬row < 1 by omega)]
    have hlen : ((prepareSheetXML ws.Row row).length : Int) = max ws.Row.length row.toNat := by
      rw [prepare_len]
    rw [if_neg (by simp only [List.length_set]; omega)]
    have hidx : (row - 1).toNat < (prepareSheetXML ws.Row row).length := by
      rw [prepare_len]; omega
    rw [list_getD_set_self _ _ _ _ hidx]
    rfl

/-- Claim C1 witness: the amended theorem applied on a worksheet with
no stored rows at row 2. -/
theorem C1_witness :
    GetRowVisible { Row := [], MergeCells := none } 2 = .ok false ∧
      (SetRowVisible { Row := [], MergeCells := none } 2 false).bind
        (fun w => GetRowVisible w 2) = .ok false :=
  ⟨C1_thm.1 { Row := [], MergeCells := none } 2 (by norm_num) (by norm_num),
    C1_thm.2 { Row := [], MergeCells := none } 2 (by norm_num)⟩

/-! ## Claim C7 -/

/-- Claim C7 counterexample: a shared-string cell whose raw value
parses to the negative index -1 is out of range of the one-element
shared-string table, yet value resolution does not fall back to the
raw value — the Go code indexes `d.SI[-1]` and panics (modelled as an
error). -/
theorem C7_cex :
    getValueFrom (fun _ v => v) ["x"] { R := "A1", T := "s", S := 0, V := "-1", IS := none } =
      .error "runtime error: index out of range" := rfl

/-- Claim C7, amended: for a shared-string cell with non-empty raw
value, the parsed index (0 when `strconv.Atoi` fails, its error being
discarded) resolves, when non-negative and within the table, to the
shared string at that index with formatting applied; when at least the
table length, the raw value is formatted as-is; no error occurs in
those two cases (a negative parsed index instead panics). -/
theorem C7_thm (fmt : Int → String → String) (si : List String) (c : XlsxC)
    (hT : c.T = "s") (hV : c.V ≠ "") (i : Int) (hi : (atoiGo c.V).getD 0 = i)
    (hnn : 0 ≤ i) :
    (i < (si.length : Int) → getValueFrom fmt si c = .ok (fmt c.S (si.getD i.toNat ""))) ∧
    ((si.length : Int) ≤ i → getValueFrom fmt si c = .ok (fmt c.S c.V)) := by
  unfold getValueFrom
  rw [hT]
  constructor
  · intro hlt
    rw [if_pos hV]
    simp only [hi]
    rw [if_pos (by omega)]
    unfold goIndex
    rw [if_pos (by omega)]
  · intro hge
    rw [if_pos hV]
    simp only [hi]
    rw [if_neg (by omega)]

/-- Claim C7 witness: the amended theorem applied to index 1 within a
two-string table and to index 5 beyond a one-string table. -/
theorem C7_witness :
    getValueFrom (fun _ v => v) ["x", "y"]
        { R := "A1", T := "s", S := 0, V := "1", IS := none } = .ok "y" ∧
    getValueFrom (fun _ v => v) ["x"]
        { R := "A1", T := "s", S := 0, V := "5", IS := none } = .ok "5" :=
  ⟨(C7_thm (fun _ v => v) ["x", "y"] { R := "A1", T := "s", S := 0, V := "1", IS := none }
      rfl (by decide) 1 rfl (by norm_num)).1 (by norm_num),
    (C7_thm (fun _ v => v) ["x"] { R := "A1", T := "s", S := 0, V := "5", IS := none }
      rfl (by decide) 5 rfl (by norm_num)).2 (by norm_num)⟩

/-! ## Claim C8 -/

/-- Claim C8: `RemoveRow` rejects every row number below 1 with
`InvalidRowNumber`; for a row beyond the stored count it removes
nothing but still hands a -1 shift at that row to the
reference-adjustment collaborator; and on the five-row example,
removing row 3 leaves exactly four rows with the rows originally
numbered 4 and 5 renumbered to 3 and 4. -/
theorem C8_thm :
    (∀ (ws : XlsxWorksheet) (row : Int), row < 1 →
      RemoveRow ws row = .error (newInvalidRowNumberError row)) ∧
    (∀ (ws : XlsxWorksheet) (row : Int), (ws.Row.length : Int) < row →
      RemoveRow ws row = .ok (adjustHelper ws row (-1))) ∧
    RemoveRow ws5rows 3 = .ok ws4rowsAfter := by
  refine ⟨?_, ?_, ?_⟩
  · intro ws row h
    unfold RemoveRow
    rw [if_pos h]
  · intro ws row h
    have h0 : (0 : Int) ≤ ws.Row.length := by positivity
    unfold RemoveRow
    rw [if_neg (by omega), if_pos h]
  · rfl

/-- Claim C8 witness: the theorem's first two parts applied at row 0
and at row 2 of an empty sheet. -/
theorem C8_witness :
    RemoveRow { Row := [], MergeCells := none } 0 = .error (newInvalidRowNumberError 0) ∧
    RemoveRow { Row := [], MergeCells := none } 2 =
      .ok (adjustHelper { Row := [], MergeCells := none } 2 (-1)) :=
  ⟨C8_thm.1 { Row := [], MergeCells := none } 0 (by norm_num),
    C8_thm.2.1 { Row := [], MergeCells := none } 2 (by norm_num)⟩

/-! ## Claim C10 -/

/-- Claim C10: for a worksheet with `n` stored rows and a row number
`r` with `1 ≤ r ≤ n` carried by no stored record (sparse storage),
`RemoveRow` returns success and leaves the worksheet entirely
unchanged — no record removed, no -1 shift performed. -/
theorem C10_thm (ws : XlsxWorksheet) (r : Int) (h1 : 1 ≤ r)
    (h2 : r ≤ (ws.Row.length : Int)) (h3 : ∀ row ∈ ws.Row, row.R ≠ r) :
    RemoveRow ws r = .ok ws := by
  unfold RemoveRow
  rw [if_neg (by omega), if_neg (by omega)]
  rw [find?_eq_none_of_forall _ _ (by intro x hx; simpa using h3 x hx)]

/-- Claim C10 witness: the theorem applied to a three-row worksheet
storing rows 2, 3, 4 at the absent row number 1. -/
theorem C10_witness : RemoveRow wsSparse234 1 = .ok wsSparse234 :=
  C10_thm wsSparse234 1 (by norm_num) (by decide) (by decide)

/-! ## Claim C5 -/

lemma prescan_cells (cs : List XlsxC) :
    ∀ (rest : List Tok) (v t : Int),
      prescan (cs.map Tok.cellElem ++ rest) v t = prescan rest v t := by
  induction cs with
  | nil => intro rest v t; rfl
  | cons c cs ih => intro rest v t; exact ih rest v t

lemma prescan_startRow (attrs : List (String × String)) (rest : List Tok) (v t : Int) :
    prescan (Tok.startRow attrs :: rest) v t =
      match rowAttrScan v attrs with
      | .error e => .error e
      | .ok r => prescan rest r r := rfl

lemma prescan_rowToks (a : String) (n : Int) (cs : List XlsxC) (h : atoiGo a = some n)
    (rest : List Tok) (v t : Int) :
    prescan (rowToks a cs ++ rest) v t = prescan rest n n := by
  have h1 : rowAttrScan v [("r", a)] = .ok n := by
    unfold rowAttrScan
    rw [if_pos rfl, h]
    rfl
  show prescan (Tok.startRow [("r", a)] :: ((cs.map Tok.cellElem ++ [Tok.endRow]) ++ rest)) v t =
    prescan rest n n
  rw [prescan_startRow, h1]
  show prescan ((cs.map Tok.cellElem ++ [Tok.endRow]) ++ rest) n n = prescan rest n n
  rw [List.append_assoc, List.singleton_append]
  exact prescan_cells cs (Tok.endRow :: rest) n n

lemma prescan_sheet (a : String) (cs : List XlsxC) (n : Int) (hl : atoiGo a = some n) :
    ∀ (specs : List (String × List XlsxC)), (∀ p ∈ specs, (atoiGo p.1).isSome) →
      ∀ v t, prescan (sheetToksOf (specs ++ [(a, cs)])) v t = .ok n := by
  intro specs
  induction specs with
  | nil =>
    intro _ v t
    show prescan (rowToks a cs ++ sheetToksOf []) v t = _
    rw [prescan_rowToks a n cs hl]
    rfl
  | cons p ps ih =>
    intro hall v t
    show prescan (rowToks p.1 p.2 ++ sheetToksOf (ps ++ [(a, cs)])) v t = _
    obtain ⟨m, hm⟩ := Option.isSome_iff_exists.mp (hall p (by simp))
    rw [prescan_rowToks p.1 m p.2 hm]
    exact ih (fun q hq => hall q (by simp [hq])) m m

lemma nextN_state (it : RowsIter) :
    ∀ k : Nat, (nextN it k).2.curRow = it.curRow + k ∧ (nextN it k).2.totalRow = it.totalRow := by
  intro k
  induction k with
  | zero => exact ⟨by simp [nextN], rfl⟩
  | succ m ih =>
    refine ⟨?_, ?_⟩
    · show (nextN it m).2.curRow + 1 = it.curRow + ((m : Int) + 1)
      rw [ih.1]
      ring
    · exact ih.2

lemma nextN_iff (it : RowsIter) (k : Nat) :
    (nextN it (k + 1)).1 = true ↔ (it.curRow + k + 1 : Int) ≤ it.totalRow := by
  have h := nextN_state it k
  show (((nextN it k).2).next).1 = true ↔ _
  unfold RowsIter.next
  rw [decide_eq_true_eq, h.1, h.2]

/-- Claim C5 counterexample: on a stream declaring row 5 first and row
3 second, `Rows` sets `totalRow` to 3 — the last declared row number —
not to the maximum 5, and the fourth `Next` call already returns
false. -/
theorem C5_cex :
    RowsOpen c5cexToks = .ok (iterAt 3 c5cexToks) ∧ (3 : Int) ≠ 5 ∧
      (nextN (iterAt 3 c5cexToks) 4).1 = false := by
  refine ⟨rfl, by norm_num, rfl⟩

/-- Claim C5, amended: `Rows` sets the iterator's `totalRow` to the row
number attribute of the *last* declared row element (which is the
maximum only when declarations are in ascending order), and `Next`
returns true exactly for logical cursor positions 1 through that
value. -/
theorem C5_thm (specs : List (String × List XlsxC)) (a : String) (cs : List XlsxC)
    (n : Int) (hall : ∀ p ∈ specs, (atoiGo p.1).isSome) (hlast : atoiGo a = some n) :
    ∃ it : RowsIter, RowsOpen (sheetToksOf (specs ++ [(a, cs)])) = .ok it ∧
      it.totalRow = n ∧ it.curRow = 0 ∧
      ∀ k : Nat, ((nextN it (k + 1)).1 = true ↔ (k + 1 : Int) ≤ n) := by
  refine ⟨iterAt n (sheetToksOf (specs ++ [(a, cs)])), ?_, rfl, rfl, ?_⟩
  · unfold RowsOpen
    rw [prescan_sheet a cs n hlast specs hall 0 0]
    rfl
  · intro k
    have h := nextN_iff (iterAt n (sheetToksOf (specs ++ [(a, cs)]))) k
    simpa [iterAt] using h

/-- Claim C5 witness: the amended theorem applied to a stream declaring
row 2 and then row 1 — `totalRow` becomes 1. -/
theorem C5_witness :
    ∃ it : RowsIter,
      RowsOpen (sheetToksOf ([("2", [cellStr "A2" "x"])] ++ [("1", [])])) = .ok it ∧
      it.totalRow = 1 ∧ it.curRow = 0 ∧
      ∀ k : Nat, ((nextN it (k + 1)).1 = true ↔ (k + 1 : Int) ≤ 1) :=
  C5_thm [("2", [cellStr "A2" "x"])] "1" [] 1 (by decide) (by decide)

/-! ## Claim C2 -/

lemma CoordinatesToCellName_pos (c r : Int) (hc : 1 ≤ c) (hr : 1 ≤ r) :
    CoordinatesToCellName c r = .ok (colNameAux c.toNat c.toNat ++ intRepr r) := by
  unfold CoordinatesToCellName ColumnNumberToName
  rw [if_neg (by omega), if_neg (by omega)]

lemma buildPlaceholders_eq (rowIdx : Nat) :
    ∀ (k colIdx : Nat),
      buildPlaceholders rowIdx colIdx k = .ok (phExpected rowIdx colIdx k) := by
  intro k
  induction k with
  | zero => intro colIdx; rfl
  | succ m ih =>
    intro colIdx
    unfold buildPlaceholders phExpected
    have hc : CoordinatesToCellName ((colIdx : Int) + 1) ((rowIdx : Int) + 1) =
        .ok (colNameAux (colIdx + 1) (colIdx + 1) ++ intRepr ((rowIdx : Int) + 1)) := by
      rw [CoordinatesToCellName_pos _ _ (by omega) (by omega)]
      congr 2
    rw [hc, ih (colIdx + 1)]

/-- Claim C2 counterexample: on a worksheet storing the single record
numbered 15 with cells at columns 1, 2, 6, 7, `checkRow` rebuilds the
cell list with placeholders C1, D1, E1 — the placeholder references
carry the slice position plus one (here 1), not the row's own number
15. -/
theorem C2_cex :
    checkRow wsSparse15 = .ok wsSparse15Out ∧
      ((wsSparse15Out.Row.getD 0 (rowZero 0)).C.getD 2 cZero).R = "C1" ∧ "C1" ≠ "C15" := by
  refine ⟨rfl, rfl, by decide⟩

/-- Claim C2, amended: for every stored row whose declared cell count
is less than its last cell's column, `checkRow` rebuilds the cell list
as the dense placeholder sequence — whose references carry the row's
*position in the stored sequence* plus one as row number, equal to the
row's own number only for densely stored sheets — with the original
cells overlaid at their column slots; in particular on a sheet storing
rows 1..14 followed by row 15 with cells at columns 1, 2, 6, 7, row 15
becomes exactly A15..G15 with the originals' full content preserved at
columns 1, 2, 6, 7 and empty placeholders at 3, 4, 5. -/
theorem C2_thm :
    (∀ (rowIdx : Nat) (rowData : XlsxRow) (lastCol r0 : Int) (out : List XlsxC),
      rowData.C ≠ [] →
      CellNameToCoordinates (rowData.C.getLastD cZero).R = .ok (lastCol, r0) →
      (rowData.C.length : Int) < lastCol →
      overlayCells (phExpected rowIdx 0 lastCol.toNat) rowData.C = .ok out →
      checkRowCells rowIdx rowData = .ok { rowData with C := out }) ∧
    checkRow wsDense15 = .ok wsDense15Out := by
  constructor
  · intro rowIdx rowData lastCol r0 out hne hp hlt hov
    unfold checkRowCells
    rw [if_neg (fun h => hne (List.length_eq_zero.mp h)), hp]
    show (if (rowData.C.length : Int) < lastCol then _ else _) = _
    rw [if_pos hlt, buildPlaceholders_eq]
    show (match overlayCells (phExpected rowIdx 0 lastCol.toNat) rowData.C with
      | Except.error e => Except.error e
      | Except.ok final => Except.ok { rowData with C := final }) =
      Except.ok { rowData with C := out }
    rw [hov]
  · rfl

/-- Claim C2 witness: the amended theorem's general part applied to the
lone sparse record numbered 15 at slice position 0. -/
theorem C2_witness :
    checkRowCells 0 row15sparse = .ok { row15sparse with C := row15at0.C } :=
  C2_thm.1 0 row15sparse 7 15 row15at0.C (by decide) rfl (by decide) rfl

/-! ## Claims C4 and C9: merged-cell repair -/

lemma straddleCheck_cons_no (row2 : Int) (m : XlsxMergeCell) (cells : List XlsxMergeCell)
    (x1 y1 x2 y2 : Int) (hp : areaRefToCoordinates m.Ref = .ok (x1, y1, x2, y2))
    (h : ¬(y1 < row2 ∧ row2 < y2)) :
    straddleCheck row2 (m :: cells) = straddleCheck row2 cells := by
  simp only [straddleCheck, hp]
  rw [if_neg h]

lemma straddleCheck_true (row2 : Int) :
    ∀ cells : List XlsxMergeCell,
      (∀ m' ∈ cells, ∃ q, areaRefToCoordinates m'.Ref = .ok q) →
      (∃ m ∈ cells, ∃ x1 y1 x2 y2, areaRefToCoordinates m.Ref = .ok (x1, y1, x2, y2) ∧
        y1 < row2 ∧ row2 < y2) →
      straddleCheck row2 cells = .ok true := by
  intro cells
  induction cells with
  | nil =>
    intro _ hex
    obtain ⟨m, hm, -⟩ := hex
    exact absurd hm (List.not_mem_nil m)
  | cons m0 rest ih =>
    intro hall hex
    obtain ⟨⟨a1, b1, a2, b2⟩, h0⟩ := hall m0 (by simp)
    by_cases hc : b1 < row2 ∧ row2 < b2
    · simp only [straddleCheck, h0]
      rw [if_pos hc]
    · rw [straddleCheck_cons_no row2 m0 rest a1 b1 a2 b2 h0 hc]
      apply ih (fun q hq => hall q (by simp [hq]))
      obtain ⟨m, hm, x1, y1, x2, y2, hp, hy1, hy2⟩ := hex
      rcases List.mem_cons.mp hm with h | h
      · subst h
        rw [h0] at hp
        simp only [Except.ok.injEq, Prod.mk.injEq] at hp
        obtain ⟨-, h1, -, h2⟩ := hp
        exact absurd ⟨h1 ▸ hy1, h2 ▸ hy2⟩ hc
      · exact ⟨m, h, x1, y1, x2, y2, hp, hy1, hy2⟩

lemma dupLoop_stop (row row2 : Int) (fuel i : Nat) (cells : List XlsxMergeCell)
    (h : ¬i < cells.length) : dupLoop row row2 fuel i cells = .ok cells := by
  cases fuel with
  | zero => rfl
  | succ n =>
    simp only [dupLoop]
    rw [dif_neg h]

lemma dupLoop_hit (row row2 : Int) (fuel i : Nat) (cells : List XlsxMergeCell)
    (x1 y x2 : Int) (h : i < cells.length)
    (hp : areaRefToCoordinates (cells.get ⟨i, h⟩).Ref = .ok (x1, y, x2, y)) (hy : y = row) :
    dupLoop row row2 (fuel + 1) i cells =
      dupLoop row row2 fuel (i + 2) (mergeCellAppend cells
        ((CoordinatesToCellName x1 row2).toOption.getD "")
        ((CoordinatesToCellName x2 row2).toOption.getD "")) := by
  simp only [dupLoop]
  rw [dif_pos h]
  simp only [hp]
  rw [if_pos ⟨trivial, hy⟩]

lemma dupLoop_miss (row row2 : Int) (fuel i : Nat) (cells : List XlsxMergeCell)
    (x1 y1 x2 y2 : Int) (h : i < cells.length)
    (hp : areaRefToCoordinates (cells.get ⟨i, h⟩).Ref = .ok (x1, y1, x2, y2))
    (hne : ¬(y1 = y2 ∧ y1 = row)) :
    dupLoop row row2 (fuel + 1) i cells = dupLoop row row2 fuel (i + 1) cells := by
  simp only [dupLoop]
  rw [dif_pos h]
  simp only [hp]
  rw [if_neg hne]

/-- Claim C4: (i) when `row2` falls strictly inside some existing
region's row span, `duplicateMergeCells` creates nothing and returns
the worksheet unchanged; (ii) for a worksheet whose single merged
region is single-row on the (shift-adjusted) source row,
`duplicateMergeCells` creates an equivalent region with the same
column span at the destination row; (iii) on the concrete example,
`DuplicateRowTo(sheet, 2, 7)` with merge "C2:D2" produces "C7:D7" and
leaves the original row 2 unchanged. -/
theorem C4_thm :
    (∀ (ws : XlsxWorksheet) (cells : List XlsxMergeCell) (row row2 : Int),
      ws.MergeCells = some cells →
      (∀ m' ∈ cells, ∃ q, areaRefToCoordinates m'.Ref = .ok q) →
      (∃ m ∈ cells, ∃ x1 y1 x2 y2, areaRefToCoordinates m.Ref = .ok (x1, y1, x2, y2) ∧
        y1 < row2 ∧ row2 < y2) →
      duplicateMergeCells ws row row2 = .ok ws) ∧
    (∀ (ws : XlsxWorksheet) (m : XlsxMergeCell) (x1 x2 row row2 radj : Int)
      (fromRef toRef : String),
      ws.MergeCells = some [m] →
      radj = (if row > row2 then row + 1 else row) →
      areaRefToCoordinates m.Ref = .ok (x1, radj, x2, radj) →
      CoordinatesToCellName x1 row2 = .ok fromRef →
      CoordinatesToCellName x2 row2 = .ok toRef →
      duplicateMergeCells ws row row2 =
        .ok { ws with MergeCells := some [m, { Ref := fromRef ++ ":" ++ toRef }] }) ∧
    DuplicateRowTo wsMergeEx 2 7 = .ok wsMergeExOut := by
  refine ⟨?_, ?_, rfl⟩
  · intro ws cells row row2 hmc hall hex
    simp only [duplicateMergeCells, hmc, straddleCheck_true row2 cells hall hex]
  · intro ws m x1 x2 row row2 radj fromRef toRef hmc hradj hp hfrom hto
    subst hradj
    have hstr : straddleCheck row2 [m] = .ok false := by
      rw [straddleCheck_cons_no row2 m [] x1 _ x2 _ hp
        (fun hcon => absurd (hcon.1.trans hcon.2) (lt_irrefl _))]
      rfl
    have hloop : dupLoop (if row > row2 then row + 1 else row) row2 (List.length [m] + 1) 0 [m] =
        .ok [m, { Ref := fromRef ++ ":" ++ toRef }] := by
      rw [dupLoop_hit _ row2 (List.length [m]) 0 [m] x1 _ x2 (by norm_num) hp rfl, hfrom, hto]
      show dupLoop _ row2 (List.length [m]) 2 [m, { Ref := fromRef ++ ":" ++ toRef }] = _
      exact dupLoop_stop _ row2 _ 2 _ (by norm_num)
    simp only [duplicateMergeCells, hmc, hstr, hloop]

/-- Claim C4 witness: part (i) applied to a region "C5:D9" straddling
destination row 7, part (ii) applied to the single-row merge "C2:D2"
duplicated from row 2 to row 7. -/
theorem C4_witness :
    duplicateMergeCells { Row := [], MergeCells := some [{ Ref := "C5:D9" }] } 2 7 =
      .ok { Row := [], MergeCells := some [{ Ref := "C5:D9" }] } ∧
    duplicateMergeCells { Row := [], MergeCells := some [{ Ref := "C2:D2" }] } 2 7 =
      .ok { Row := [], MergeCells := some [{ Ref := "C2:D2" }, { Ref := "C7:D7" }] } := by
  constructor
  · exact C4_thm.1 _ [{ Ref := "C5:D9" }] 2 7 rfl
      (by intro m' hm'; rw [List.mem_singleton] at hm'; subst hm'; exact ⟨(3, 5, 4, 9), rfl⟩)
      ⟨{ Ref := "C5:D9" }, by simp, 3, 5, 4, 9, rfl, by norm_num, by norm_num⟩
  · exact C4_thm.2.1 _ { Ref := "C2:D2" } 3 4 2 7 2 "C7" "D7" rfl (by norm_num) rfl rfl rfl

/-- Claim C9: with two consecutive single-row merged regions on the
(adjusted) source row, the duplication loop creates a region at the
destination only for the first of the two — after the match it skips
the immediately following entry without examining it — so the result
list is exactly the two originals plus one duplicate of the first. -/
theorem C9_thm (ws : XlsxWorksheet) (a b : XlsxMergeCell)
    (xa1 xa2 xb1 xb2 row row2 radj : Int) (fa ta : String)
    (hmc : ws.MergeCells = some [a, b])
    (hradj : radj = (if row > row2 then row + 1 else row))
    (hne : row ≠ row2)
    (hpa : areaRefToCoordinates a.Ref = .ok (xa1, radj, xa2, radj))
    (hpb : areaRefToCoordinates b.Ref = .ok (xb1, radj, xb2, radj))
    (hfa : CoordinatesToCellName xa1 row2 = .ok fa)
    (hta : CoordinatesToCellName xa2 row2 = .ok ta)
    (hnew : areaRefToCoordinates (fa ++ ":" ++ ta) = .ok (xa1, row2, xa2, row2)) :
    duplicateMergeCells ws row row2 =
      .ok { ws with MergeCells := some [a, b, { Ref := fa ++ ":" ++ ta }] } := by
  have hrne : ¬((row2 : Int) = row2 ∧ row2 = radj) := by
    intro hcon
    rcases hcon with ⟨-, h2⟩
    by_cases hgt : row > row2
    · rw [if_pos hgt] at hradj; omega
    · rw [if_neg hgt] at hradj; omega
  subst hradj
  have hstr : straddleCheck row2 [a, b] = .ok false := by
    rw [straddleCheck_cons_no row2 a [b] xa1 _ xa2 _ hpa
      (fun hcon => absurd (hcon.1.trans hcon.2) (lt_irrefl _)),
      straddleCheck_cons_no row2 b [] xb1 _ xb2 _ hpb
      (fun hcon => absurd (hcon.1.trans hcon.2) (lt_irrefl _))]
    rfl
  have hloop : dupLoop (if row > row2 then row + 1 else row) row2
      (List.length [a, b] + 1) 0 [a, b] = .ok [a, b, { Ref := fa ++ ":" ++ ta }] := by
    rw [dupLoop_hit _ row2 (List.length [a, b]) 0 [a, b] xa1 _ xa2 (by norm_num) hpa rfl,
      hfa, hta]
    show dupLoop _ row2 (List.length [a, b]) 2 [a, b, { Ref := fa ++ ":" ++ ta }] = _
    show dupLoop _ row2 (1 + 1) 2 [a, b, { Ref := fa ++ ":" ++ ta }] = _
    rw [dupLoop_miss _ row2 1 2 [a, b, { Ref := fa ++ ":" ++ ta }] xa1 row2 xa2 row2
      (by norm_num) hnew hrne]
    exact dupLoop_stop _ row2 _ 3 _ (by norm_num)
  simp only [duplicateMergeCells, hmc, hstr, hloop]

/-- Claim C9 witness: the theorem applied to consecutive single-row
merges "C2:D2" and "F2:G2" on source row 2, duplicated to row 7 — only
"C7:D7" is created. -/
theorem C9_witness : duplicateMergeCells wsMerge2 2 7 = .ok wsMerge2Out :=
  C9_thm wsMerge2 { Ref := "C2:D2" } { Ref := "F2:G2" } 3 4 6 7 2 7 2 "C7" "D7" rfl
    (by norm_num) (by norm_num) rfl rfl rfl rfl rfl

/-! ## Claim C6 -/

lemma columnsAux_startRow_cont (fmt : Int → String → String) (si : List String) (cur : Int)
    (attrs : List (String × String)) (rest : List Tok) (cols : List String) (v : Int)
    (h : colRowAttrScan cur 0 attrs = .cont v) :
    columnsAux fmt si cur (Tok.startRow attrs :: rest) cols = columnsAux fmt si cur rest cols := by
  simp only [columnsAux, h]

lemma columnsAux_startRow_stash (fmt : Int → String → String) (si : List String) (cur : Int)
    (attrs : List (String × String)) (rest : List Tok) (cols : List String) (r : Int)
    (h : colRowAttrScan cur 0 attrs = .stash r) :
    columnsAux fmt si cur (Tok.startRow attrs :: rest) cols =
      { cols := cols, err := none, rest := rest, stash := some (r - 1) } := by
  simp only [columnsAux, h]

lemma columnsAux_cells (fmt : Int → String → String) (si : List String) (cur : Int) :
    ∀ (cs : List XlsxC) (cols out : List String) (rest : List Tok),
      denseRowAux fmt si cs cols = .ok out →
      columnsAux fmt si cur (cs.map Tok.cellElem ++ (Tok.endRow :: rest)) cols =
        { cols := out, err := none, rest := rest, stash := none } := by
  intro cs
  induction cs with
  | nil =>
    intro cols out rest h
    obtain rfl : cols = out := by simpa [denseRowAux] using h
    rfl
  | cons c cs ih =>
    intro cols out rest h
    unfold denseRowAux at h
    cases hc : CellNameToCoordinates c.R with
    | error e =>
      simp only [hc] at h
      exact Except.noConfusion h
    | ok p =>
      obtain ⟨col, r⟩ := p
      simp only [hc] at h
      cases hv : getValueFrom fmt si c with
      | error e =>
        simp only [hv] at h
        exact Except.noConfusion h
      | ok v =>
        simp only [hv] at h
        show columnsAux fmt si cur
          (Tok.cellElem c :: (cs.map Tok.cellElem ++ (Tok.endRow :: rest))) cols = _
        simp only [columnsAux, hc, hv]
        exact ih _ out rest h

lemma getRowsLoop_step (fmt : Int → String → String) (si : List String) (total : Int)
    (fuel : Nat) (curRow stash : Int) (toks : List Tok) (acc : List (List String))
    (cols : List String) (rest : List Tok) (stash' : Option Int)
    (hcur : curRow + 1 ≤ total) (hstash : ¬stash ≥ curRow + 1)
    (hcols : columnsAux fmt si (curRow + 1) toks [] =
      { cols := cols, err := none, rest := rest, stash := stash' }) :
    getRowsLoop fmt si total (fuel + 1) curRow stash toks acc =
      getRowsLoop fmt si total fuel (curRow + 1) (stash'.getD stash) rest (acc ++ [cols]) := by
  simp only [getRowsLoop]
  rw [if_pos hcur, if_neg hstash, hcols]

lemma getRowsLoop_stop (fmt : Int → String → String) (si : List String) (total : Int)
    (fuel : Nat) (curRow stash : Int) (toks : List Tok) (acc : List (List String))
    (h : ¬curRow + 1 ≤ total) :
    getRowsLoop fmt si total (fuel + 1) curRow stash toks acc = acc := by
  simp only [getRowsLoop]
  rw [if_neg h]

/-- Claim C6: on a worksheet whose XML declares rows only at 1, 3 and 5
(rows 2 and 4 absent), `GetRows` returns exactly 5 row value lists:
positions 2 and 4 are empty and positions 1, 3, 5 hold the dense value
lists of the declared rows (`denseRow`, stated from the spec's
left-padding rule). -/
theorem C6_thm (fmt : Int → String → String) (si : List String)
    (cs1 cs3 cs5 : List XlsxC) (l1 l3 l5 : List String)
    (h1 : denseRow fmt si cs1 = .ok l1) (h3 : denseRow fmt si cs3 = .ok l3)
    (h5 : denseRow fmt si cs5 = .ok l5) :
    GetRows fmt si (sheetToksOf [("1", cs1), ("3", cs3), ("5", cs5)]) =
      .ok [l1, [], l3, [], l5] := by
  have hall : ∀ p ∈ [("1", cs1), ("3", cs3)], (atoiGo p.1).isSome := by
    intro p hp
    rcases List.mem_cons.mp hp with h | h
    · subst h; rfl
    · rw [List.mem_singleton] at h; subst h; rfl
  have hpre : prescan (sheetToksOf [("1", cs1), ("3", cs3), ("5", cs5)]) 0 0 = .ok 5 :=
    prescan_sheet "5" cs5 5 rfl [("1", cs1), ("3", cs3)] hall 0 0
  have hC1 : columnsAux fmt si 1 (sheetToksOf [("1", cs1), ("3", cs3), ("5", cs5)]) [] =
      { cols := l1, err := none, rest := sheetToksOf [("3", cs3), ("5", cs5)], stash := none } := by
    show columnsAux fmt si 1 (Tok.startRow [("r", "1")] ::
      ((cs1.map Tok.cellElem ++ [Tok.endRow]) ++ sheetToksOf [("3", cs3), ("5", cs5)])) [] = _
    rw [columnsAux_startRow_cont fmt si 1 [("r", "1")] _ [] 1 rfl, List.append_assoc,
      List.singleton_append]
    exact columnsAux_cells fmt si 1 cs1 [] l1 _ h1
  have hC2 : columnsAux fmt si 2 (sheetToksOf [("3", cs3), ("5", cs5)]) [] =
      { cols := [], err := none,
        rest := (cs3.map Tok.cellElem ++ [Tok.endRow]) ++ sheetToksOf [("5", cs5)],
        stash := some 2 } := by
    show columnsAux fmt si 2 (Tok.startRow [("r", "3")] ::
      ((cs3.map Tok.cellElem ++ [Tok.endRow]) ++ sheetToksOf [("5", cs5)])) [] = _
    exact columnsAux_startRow_stash fmt si 2 _ _ [] 3 rfl
  have hC3 : columnsAux fmt si 3
      ((cs3.map Tok.cellElem ++ [Tok.endRow]) ++ sheetToksOf [("5", cs5)]) [] =
      { cols := l3, err := none, rest := sheetToksOf [("5", cs5)], stash := none } := by
    rw [List.append_assoc, List.singleton_append]
    exact columnsAux_cells fmt si 3 cs3 [] l3 _ h3
  have hC4 : columnsAux fmt si 4 (sheetToksOf [("5", cs5)]) [] =
      { cols := [], err := none,
        rest := (cs5.map Tok.cellElem ++ [Tok.endRow]) ++ sheetToksOf [], stash := some 4 } := by
    show columnsAux fmt si 4 (Tok.startRow [("r", "5")] ::
      ((cs5.map Tok.cellElem ++ [Tok.endRow]) ++ sheetToksOf [])) [] = _
    exact columnsAux_startRow_stash fmt si 4 _ _ [] 5 rfl
  have hC5 : columnsAux fmt si 5
      ((cs5.map Tok.cellElem ++ [Tok.endRow]) ++ sheetToksOf []) [] =
      { cols := l5, err := none, rest := [], stash := none } := by
    rw [List.append_assoc, List.singleton_append]
    exact columnsAux_cells fmt si 5 cs5 [] l5 _ h5
  have t1 : getRowsLoop fmt si 5 6 0 0 (sheetToksOf [("1", cs1), ("3", cs3), ("5", cs5)]) [] =
      getRowsLoop fmt si 5 5 1 0 (sheetToksOf [("3", cs3), ("5", cs5)]) [l1] :=
    getRowsLoop_step fmt si 5 5 0 0 _ [] l1 _ none (by norm_num) (by norm_num) hC1
  have t2 : getRowsLoop fmt si 5 5 1 0 (sheetToksOf [("3", cs3), ("5", cs5)]) [l1] =
      getRowsLoop fmt si 5 4 2 2
        ((cs3.map Tok.cellElem ++ [Tok.endRow]) ++ sheetToksOf [("5", cs5)]) [l1, []] :=
    getRowsLoop_step fmt si 5 4 1 0 _ [l1] [] _ (some 2) (by norm_num) (by norm_num) hC2
  have t3 : getRowsLoop fmt si 5 4 2 2
      ((cs3.map Tok.cellElem ++ [Tok.endRow]) ++ sheetToksOf [("5", cs5)]) [l1, []] =
      getRowsLoop fmt si 5 3 3 2 (sheetToksOf [("5", cs5)]) [l1, [], l3] :=
    getRowsLoop_step fmt si 5 3 2 2 _ [l1, []] l3 _ none (by norm_num) (by norm_num) hC3
  have t4 : getRowsLoop fmt si 5 3 3 2 (sheetToksOf [("5", cs5)]) [l1, [], l3] =
      getRowsLoop fmt si 5 2 4 4
        ((cs5.map Tok.cellElem ++ [Tok.endRow]) ++ sheetToksOf []) [l1, [], l3, []] :=
    getRowsLoop_step fmt si 5 2 3 2 _ [l1, [], l3] [] _ (some 4) (by norm_num) (by norm_num) hC4
  have t5 : getRowsLoop fmt si 5 2 4 4
      ((cs5.map Tok.cellElem ++ [Tok.endRow]) ++ sheetToksOf []) [l1, [], l3, []] =
      getRowsLoop fmt si 5 1 5 4 [] [l1, [], l3, [], l5] :=
    getRowsLoop_step fmt si 5 1 4 4 _ [l1, [], l3, []] l5 _ none (by norm_num) (by norm_num) hC5
  have t6 : getRowsLoop fmt si 5 1 5 4 ([] : List Tok) [l1, [], l3, [], l5] =
      [l1, [], l3, [], l5] :=
    getRowsLoop_stop fmt si 5 0 5 4 [] _ (by norm_num)
  simp only [GetRows, hpre, RowsOpen]
  show Except.ok (getRowsLoop fmt si 5 6 0 0 (sheetToksOf [("1", cs1), ("3", cs3), ("5", cs5)]) [])
    = (Except.ok [l1, [], l3, [], l5] : Except String (List (List String)))
  rw [t1, t2, t3, t4, t5, t6]

/-- Claim C6 witness: the theorem applied to concrete cells — rows 1,
3, 5 declared with cells A1 B1 / B3 / C5, yielding five rows with
positions 2, 4 empty and left-padded dense lists at 1, 3, 5. -/
theorem C6_witness :
    GetRows (fun _ v => v) []
      (sheetToksOf [("1", [cellStr "A1" "a", cellStr "B1" "b"]),
        ("3", [cellStr "B3" "c"]), ("5", [cellStr "C5" "d"])]) =
      .ok [["a", "b"], [], ["", "c"], [], ["", "", "d"]] :=
  C6_thm (fun _ v => v) [] [cellStr "A1" "a", cellStr "B1" "b"] [cellStr "B3" "c"]
    [cellStr "C5" "d"] ["a", "b"] ["", "c"] ["", "", "d"] rfl rfl rfl

/-! ## Claim C3: helper lemmas about the shifted and densified store -/

lemma list_getD_set_ne {α : Type} (d : α) :
    ∀ (l : List α) (i j : Nat) (a : α), i ≠ j → (l.set i a).getD j d = l.getD j d := by
  intro l
  induction l with
  | nil => intro i j a _; rfl
  | cons x xs ih =>
    intro i j a hij
    cases i with
    | zero =>
      cases j with
      | zero => exact absurd rfl hij
      | succ j' => rfl
    | succ i' =>
      cases j with
      | zero => rfl
      | succ j' => exact ih i' j' a (fun h => hij (by rw [h]))

lemma list_getD_mem {α : Type} (d : α) :
    ∀ (l : List α) (j : Nat), j < l.length → l.getD j d ∈ l := by
  intro l
  induction l with
  | nil => intro j h; simp at h
  | cons x xs ih =>
    intro j h
    cases j with
    | zero => exact List.mem_cons_self x xs
    | succ j' =>
      exact List.mem_cons_of_mem x (ih j' (by simpa using h))

lemma list_mem_set_self {α : Type} (d : α) (l : List α) (i : Nat) (a : α)
    (h : i < l.length) : a ∈ l.set i a := by
  have h' : i < (l.set i a).length := by rw [List.length_set]; exact h
  have hg := list_getD_mem d (l.set i a) i h'
  rw [list_getD_set_self l i a d h] at hg
  exact hg

lemma ajust_R (r : XlsxRow) (n : Int) : (ajustSingleRowDimensions r n).R = n := rfl

lemma findRowByR_R (rs : List XlsxRow) (n : Int) (r : XlsxRow)
    (h : findRowByR rs n = some r) : r.R = n := by
  simpa using List.find?_some h

lemma buildDense_length (rs : List XlsxRow) : ∀ (k i : Nat), (buildDense rs i k).length = k := by
  intro k
  induction k with
  | zero => intro i; rfl
  | succ m ih => intro i; simpa [buildDense] using ih (i + 1)

lemma buildDense_getD (rs : List XlsxRow) (d : XlsxRow) :
    ∀ (k i j : Nat), j < k →
      (buildDense rs i k).getD j d =
        (findRowByR rs (((i + j : Nat) : Int) + 1)).getD (rowZero (((i + j : Nat) : Int) + 1)) := by
  intro k
  induction k with
  | zero => intro i j h; simp at h
  | succ m ih =>
    intro i j h
    cases j with
    | zero => simp [buildDense, List.getD]
    | succ j' =>
      have := ih (i + 1) j' (by omega)
      show (buildDense rs (i + 1) m).getD j' d = _
      rw [this]
      have harg : ((i + 1 + j' : Nat) : Int) = ((i + (j' + 1) : Nat) : Int) := by push_cast; ring
      rw [harg]

lemma buildDense_head_R (rs : List XlsxRow) (i : Nat) :
    ((findRowByR rs ((i : Int) + 1)).getD (rowZero ((i : Int) + 1))).R = (i : Int) + 1 := by
  cases hf : findRowByR rs ((i : Int) + 1) with
  | none => rfl
  | some r => simpa using findRowByR_R rs _ r hf

lemma buildDense_findIdx (rs : List XlsxRow) (n : Int) :
    ∀ (k i s : Nat),
      List.findIdx? (fun r => r.R == n) (buildDense rs i k) s =
        if (i : Int) + 1 ≤ n ∧ n ≤ (i : Int) + k then some ((n - i - 1).toNat + s) else none := by
  intro k
  induction k with
  | zero =>
    intro i s
    rw [if_neg (by omega)]
    exact List.findIdx?_nil
  | succ m ih =>
    intro i s
    show List.findIdx? (fun r => r.R == n)
      ((findRowByR rs ((i : Int) + 1)).getD (rowZero ((i : Int) + 1)) ::
        buildDense rs (i + 1) m) s = _
    rw [List.findIdx?_cons]
    have hR : ((findRowByR rs ((i : Int) + 1)).getD (rowZero ((i : Int) + 1))).R =
        (i : Int) + 1 := buildDense_head_R rs i
    by_cases hn : (i : Int) + 1 = n
    · rw [if_pos (by rw [hR]; simpa using hn), if_pos (by omega)]
      congr 1
      omega
    · rw [if_neg (by rw [hR]; simpa using hn), ih (i + 1) (s + 1)]
      split
      · split
        · congr 1
          omega
        · exfalso
          omega
      · split
        · exfalso
          omega
        · rfl

lemma foldl_max_init (rs : List XlsxRow) : ∀ a : Int, a ≤ rs.foldl (fun x r => max x r.R) a := by
  induction rs with
  | nil => intro a; exact le_refl a
  | cons x xs ih =>
    intro a
    exact le_trans (le_max_left a x.R) (ih (max a x.R))

lemma le_maxRowNumber (rs : List XlsxRow) (r : XlsxRow) (h : r ∈ rs) :
    r.R ≤ maxRowNumber rs := by
  unfold maxRowNumber
  generalize (0 : Int) = a
  induction rs generalizing a with
  | nil => exact absurd h (List.not_mem_nil r)
  | cons x xs ih =>
    rcases List.mem_cons.mp h with rfl | hmem
    · exact le_trans (le_max_right a r.R) (foldl_max_init xs _)
    · exact ih hmem _

lemma find_shift_lt (row row2 : Int) (hlt : row < row2) :
    ∀ (l : List XlsxRow) (src : XlsxRow), l.find? (fun x => x.R == row) = some src →
      (l.map (shiftRow row2 1)).find? (fun x => x.R == row) = some src := by
  intro l
  induction l with
  | nil => intro src h; simp at h
  | cons x xs ih =>
    intro src h
    by_cases hx : x.R = row
    · rw [List.find?_cons_of_pos _ (by simpa using hx)] at h
      obtain rfl : x = src := Option.some.inj h
      have hs : shiftRow row2 1 x = x := by
        unfold shiftRow
        rw [if_neg (by omega)]
      show List.find? _ (shiftRow row2 1 x :: xs.map _) = some x
      rw [hs, List.find?_cons_of_pos _ (by simpa using hx)]
    · rw [List.find?_cons_of_neg _ (by simpa using hx)] at h
      have hxs : (shiftRow row2 1 x).R ≠ row := by
        unfold shiftRow
        split
        · show (ajustSingleRowDimensions x (x.R + 1)).R ≠ row
          rw [ajust_R]
          omega
        · exact hx
      show List.find? _ (shiftRow row2 1 x :: xs.map _) = some src
      rw [List.find?_cons_of_neg _ (by simpa using hxs)]
      exact ih src h

lemma find_shift_gt (row row2 : Int) (hgt : row2 < row) (hpos : 0 < row + 1) :
    ∀ (l : List XlsxRow) (src : XlsxRow), l.find? (fun x => x.R == row) = some src →
      (l.map (shiftRow row2 1)).find? (fun x => x.R == row + 1) =
        some (ajustSingleRowDimensions src (row + 1)) := by
  intro l
  induction l with
  | nil => intro src h; simp at h
  | cons x xs ih =>
    intro src h
    by_cases hx : x.R = row
    · rw [List.find?_cons_of_pos _ (by simpa using hx)] at h
      obtain rfl : x = src := Option.some.inj h
      have hs : shiftRow row2 1 x = ajustSingleRowDimensions x (row + 1) := by
        unfold shiftRow
        rw [if_pos (by omega), hx]
      show List.find? _ (shiftRow row2 1 x :: xs.map _) = _
      rw [hs, List.find?_cons_of_pos _ (by rw [ajust_R]; simp)]
    · rw [List.find?_cons_of_neg _ (by simpa using hx)] at h
      have hxs : (shiftRow row2 1 x).R ≠ row + 1 := by
        unfold shiftRow
        split
        · show (ajustSingleRowDimensions x (x.R + 1)).R ≠ row + 1
          rw [ajust_R]
          omega
        · omega
      show List.find? _ (shiftRow row2 1 x :: xs.map _) = _
      rw [List.find?_cons_of_neg _ (by simpa using hxs)]
      exact ih src h

lemma duplicateMergeCells_row (w w' : XlsxWorksheet) (r r2 : Int)
    (h : duplicateMergeCells w r r2 = .ok w') : w'.Row = w.Row := by
  unfold duplicateMergeCells at h
  cases hmc : w.MergeCells with
  | none =>
    simp only [hmc] at h
    rw [Except.ok.inj h]
  | some cells =>
    simp only [hmc] at h
    cases hsc : straddleCheck r2 cells with
    | error e =>
      simp only [hsc] at h
      exact Except.noConfusion h
    | ok b =>
      cases b with
      | true =>
        simp only [hsc] at h
        rw [Except.ok.inj h]
      | false =>
        simp only [hsc] at h
        cases hdl : dupLoop (if r > r2 then r + 1 else r) r2 (cells.length + 1) 0 cells with
        | error e =>
          simp only [hdl] at h
          exact Except.noConfusion h
        | ok cells' =>
          simp only [hdl] at h
          rw [← Except.ok.inj h]

/-- Claim C3: after a successful `DuplicateRowTo(sheet, row, row2)`
with `1 ≤ row ≤ rowcount`, `row2 ≥ 1`, `row ≠ row2` and a stored source
record numbered `row`, the result stores a record that is the source
record renumbered to `row2` (the copy: same cells with every reference
renumbered to `row2`), while the source row's content is preserved —
literally unchanged when `row < row2`, renumbered to `row + 1` by the
documented +1 reference shift when `row2 < row`. -/
theorem C3_thm (ws : XlsxWorksheet) (row row2 : Int) (src : XlsxRow) (ws' : XlsxWorksheet)
    (h1 : 1 ≤ row) (h2 : row ≤ (ws.Row.length : Int)) (h3 : 1 ≤ row2) (h4 : row ≠ row2)
    (hfind : ws.Row.find? (fun r => r.R == row) = some src)
    (hrun : DuplicateRowTo ws row row2 = .ok ws') :
    ajustSingleRowDimensions src row2 ∈ ws'.Row ∧
    (row < row2 → src ∈ ws'.Row) ∧
    (row2 < row → ajustSingleRowDimensions src (row + 1) ∈ ws'.Row) := by
  have hsrcR : src.R = row := by simpa using List.find?_some hfind
  have hsrcMem : src ∈ ws.Row := List.mem_of_find?_eq_some hfind
  unfold DuplicateRowTo at hrun
  rw [if_neg (by omega)] at hrun
  rw [if_neg (by push_neg; exact ⟨by omega, by omega, h4⟩)] at hrun
  simp only [hfind] at hrun
  simp only [adjustHelper, checkSheetDensify] at hrun
  set shifted := ws.Row.map (shiftRow row2 1) with hshifted
  set M := max (maxRowNumber shifted).toNat shifted.length with hMdef
  have hshlen : shifted.length = ws.Row.length := by
    rw [hshifted, List.length_map]
  have hMlen : shifted.length ≤ M := le_max_right _ _
  have hMmax : (maxRowNumber shifted).toNat ≤ M := le_max_left _ _
  -- the source row survives in the densified store
  have hsrcslot : row < row2 →
      (buildDense shifted 0 M).getD (row - 1).toNat (rowZero 0) = src := by
    intro hlt
    have hj : (row - 1).toNat < M := by omega
    rw [buildDense_getD shifted (rowZero 0) M 0 (row - 1).toNat hj]
    have harg : ((0 + (row - 1).toNat : Nat) : Int) + 1 = row := by push_cast; omega
    rw [harg]
    have hf : findRowByR shifted row = some src := by
      rw [hshifted]
      exact find_shift_lt row row2 hlt ws.Row src hfind
    rw [hf]
    rfl
  -- the shifted source row survives in the densified store
  have hshiftslot : row2 < row →
      (buildDense shifted 0 M).getD row.toNat (rowZero 0) =
        ajustSingleRowDimensions src (row + 1) := by
    intro hgt
    have hmem2 : shiftRow row2 1 src ∈ shifted := by
      rw [hshifted]
      exact List.mem_map_of_mem _ hsrcMem
    have hRR : (shiftRow row2 1 src).R = row + 1 := by
      unfold shiftRow
      rw [if_pos (by omega), ajust_R, hsrcR]
    have hmax2 : row + 1 ≤ maxRowNumber shifted := hRR ▸ le_maxRowNumber shifted _ hmem2
    have hj : row.toNat < M := by omega
    rw [buildDense_getD shifted (rowZero 0) M 0 row.toNat hj]
    have harg : ((0 + row.toNat : Nat) : Int) + 1 = row + 1 := by push_cast; omega
    rw [harg]
    have hf : findRowByR shifted (row + 1) = some (ajustSingleRowDimensions src (row + 1)) := by
      rw [hshifted]
      exact find_shift_gt row row2 hgt (by omega) ws.Row src hfind
    rw [hf]
    rfl
  split at hrun
  case _ heq =>
    -- no slot found after the shift
    split at hrun
    case _ hlen2 =>
      -- store reaches row2 although no slot exists: impossible in the dense store
      exfalso
      rw [buildDense_length shifted M 0] at hlen2
      rw [buildDense_findIdx shifted row2 M 0 0, if_pos (by omega)] at heq
      exact Option.noConfusion heq
    case _ hlen2 =>
      -- the copy is appended
      have hwr : ws'.Row =
          buildDense shifted 0 M ++ [ajustSingleRowDimensions src row2] :=
        duplicateMergeCells_row _ ws' row row2 hrun
      rw [buildDense_length shifted M 0] at hlen2
      refine ⟨?_, ?_, ?_⟩
      · rw [hwr]
        exact List.mem_append_right _ (List.mem_singleton_self _)
      · intro hlt
        rw [hwr]
        refine List.mem_append_left _ ?_
        have hj : (row - 1).toNat < (buildDense shifted 0 M).length := by
          rw [buildDense_length]; omega
        rw [← hsrcslot hlt]
        exact list_getD_mem _ _ _ hj
      · intro hgt
        rw [hwr]
        refine List.mem_append_left _ ?_
        have hmem2 : shiftRow row2 1 src ∈ shifted := by
          rw [hshifted]; exact List.mem_map_of_mem _ hsrcMem
        have hRR : (shiftRow row2 1 src).R = row + 1 := by
          unfold shiftRow
          rw [if_pos (by omega), ajust_R, hsrcR]
        have hmax2 : row + 1 ≤ maxRowNumber shifted := hRR ▸ le_maxRowNumber shifted _ hmem2
        have hj : row.toNat < (buildDense shifted 0 M).length := by
          rw [buildDense_length]; omega
        rw [← hshiftslot hgt]
        exact list_getD_mem _ _ _ hj
  case _ i heq =>
    -- a slot was found: it is slot row2 - 1 of the dense store
    rw [buildDense_findIdx shifted row2 M 0 0] at heq
    split at heq
    case _ hcond =>
      have hi : i = (row2 - 1).toNat := by
        have := Option.some.inj heq
        omega
      have hwr : ws'.Row =
          (buildDense shifted 0 M).set i (ajustSingleRowDimensions src row2) :=
        duplicateMergeCells_row _ ws' row row2 hrun
      have hiM : i < (buildDense shifted 0 M).length := by
        rw [buildDense_length]; omega
      refine ⟨?_, ?_, ?_⟩
      · rw [hwr]
        exact list_mem_set_self (rowZero 0) _ i _ hiM
      · intro hlt
        rw [hwr]
        have hj : (row - 1).toNat < ((buildDense shifted 0 M).set i
            (ajustSingleRowDimensions src row2)).length := by
          rw [List.length_set, buildDense_length]; omega
        have hne : i ≠ (row - 1).toNat := by omega
        have heqd := list_getD_set_ne (rowZero 0) (buildDense shifted 0 M) i (row - 1).toNat
          (ajustSingleRowDimensions src row2) hne
        rw [hsrcslot hlt] at heqd
        have hmem := list_getD_mem (rowZero 0)
          ((buildDense shifted 0 M).set i (ajustSingleRowDimensions src row2)) (row - 1).toNat hj
        rw [heqd] at hmem
        exact hmem
      · intro hgt
        rw [hwr]
        have hj : row.toNat < ((buildDense shifted 0 M).set i
            (ajustSingleRowDimensions src row2)).length := by
          rw [List.length_set, buildDense_length]
          have hmem2 : shiftRow row2 1 src ∈ shifted := by
            rw [hshifted]; exact List.mem_map_of_mem _ hsrcMem
          have hRR : (shiftRow row2 1 src).R = row + 1 := by
            unfold shiftRow
            rw [if_pos (by omega), ajust_R, hsrcR]
          have hmax2 : row + 1 ≤ maxRowNumber shifted := hRR ▸ le_maxRowNumber shifted _ hmem2
          omega
        have hne : i ≠ row.toNat := by omega
        have heqd := list_getD_set_ne (rowZero 0) (buildDense shifted 0 M) i row.toNat
          (ajustSingleRowDimensions src row2) hne
        rw [hshiftslot hgt] at heqd
        have hmem := list_getD_mem (rowZero 0)
          ((buildDense shifted 0 M).set i (ajustSingleRowDimensions src row2)) row.toNat hj
        rw [heqd] at hmem
        exact hmem
    case _ hcond =>
      exact Option.noConfusion heq

/-- Claim C3 witness: the theorem applied to the two-row worksheet,
duplicating row 2 to row 7. -/
theorem C3_witness :
    ajustSingleRowDimensions srcRow2 7 ∈ wsMergeExOut.Row ∧
    ((2 : Int) < 7 → srcRow2 ∈ wsMergeExOut.Row) ∧
    ((7 : Int) < 2 → ajustSingleRowDimensions srcRow2 (2 + 1) ∈ wsMergeExOut.Row) :=
  C3_thm wsMergeEx 2 7 srcRow2 wsMergeExOut (by norm_num) (by decide) (by norm_num)
    (by norm_num) rfl rfl

end Excelize

